import Mathlib

/-!
Verification of the helo SQL-builder and connection-manager core.

The statement builders (`Select`, `Insert`, `Update`, `Delete`, the
`ValuesMatch` and `AssignmentList` clause elements) are embedded from
`helo/model/core.py`; the connection/transaction state machine from
`helo/db/backend/mysql.py`; the `Database` facade from `helo/db/core.py`.

The repository's `_sql` render-context module, the `types/_abc` column and
expression classes and `helo/util.py` are not among the provided sources;
those pieces are modelled from the spec (sections 3 and 4.1): the render
context accumulates a buffer of tokens (literal SQL fragments and parameter
placeholder tokens) together with an ordered parameter list, and a bound
value's placeholder token is emitted by the same operation that pushes the
value onto the parameter accumulator.  The concrete SQL text of a buffer is
the concatenation of its tokens, a placeholder printing as the driver's
placeholder mark.
-/

namespace Helo

/-- A bound SQL value (the claims only need strings and integers). -/
inductive Value
  | str (s : String)
  | int (n : Int)
  deriving Repr, DecidableEq

/-- One entry of the render context's parameter accumulator.  The Python
accumulator is a plain list: single-row statements push scalar values, a
batched `VALUES` push appends one tuple per row, and `AssignmentList`
appends a sub-query's parameter list as one element. -/
inductive Param
  | val (v : Value)
  | row (vs : List Value)
  deriving Repr, DecidableEq

/-- Modelled from the spec (section 3): a buffer token is either a literal
SQL fragment or a bound-parameter placeholder.  In the Python source a
placeholder is the text "%s" inside a fragment; the token form keeps the
placeholder distinguishable so that placeholder/parameter correspondence
can be stated. -/
inductive Tok
  | raw (s : String)
  | ph
  deriving Repr, DecidableEq

/-- Concrete text of one token: a literal prints verbatim, a placeholder
prints as the MySQL driver's parameter mark. -/
def Tok.render : Tok → String
  | .raw s => s
  | .ph => "%s"

/-- Concrete SQL text of a buffer: concatenation of its tokens. -/
def sqlText (ts : List Tok) : String :=
  ts.foldl (fun acc t => acc ++ t.render) ""

/-- Number of parameter placeholders in a buffer. -/
def phCount (ts : List Tok) : Nat :=
  ts.countP fun t => match t with | .ph => true | .raw _ => false

/-- Number of scalar values carried by one parameter entry. -/
def Param.flatLen : Param → Nat
  | .val _ => 1
  | .row vs => vs.length

/-- Total number of scalar values in a parameter list. -/
def paramsFlatLen (ps : List Param) : Nat :=
  (ps.map Param.flatLen).sum

/-- Modelled from the spec (section 3): the render context with its output
buffer and ordered parameter accumulator. -/
structure Context where
  buffer : List Tok
  params : List Param
  deriving Repr, DecidableEq

/-- The empty context a render pass starts from. -/
def Context.empty : Context := ⟨[], []⟩

/-- Append literal text to the buffer (`ctx.literal(...)` in the source). -/
def Context.literal (ctx : Context) (s : String) : Context :=
  { ctx with buffer := ctx.buffer ++ [.raw s] }

/-- Emit one parameter placeholder token into the buffer. -/
def Context.placeholder (ctx : Context) : Context :=
  { ctx with buffer := ctx.buffer ++ [.ph] }

/-- Extend the parameter accumulator (`ctx.values(...)` in the source). -/
def Context.values (ctx : Context) (ps : List Param) : Context :=
  { ctx with params := ctx.params ++ ps }

/-- Modelled from the spec (section 4.1): a boolean/comparison expression
tree as produced by the missing `types/_abc` column operators.  A
comparison renders its column, its operator and one placeholder, pushing
the compared value; `AND`/`OR` combine children by binary reduction. -/
inductive Expression
  | cmp (col : String) (op : String) (v : Value)
  | and_ (l r : Expression)
  | or_ (l r : Expression)
  deriving Repr, DecidableEq

/-- Render an expression into a context.  The placeholder token and the
parameter push happen in the same step, per the spec's pairing rule. -/
def Expression.sql : Expression → Context → Context
  | .cmp c o v, ctx =>
      ((ctx.literal ("`" ++ c ++ "` " ++ o ++ " ")).placeholder).values [.val v]
  | .and_ l r, ctx => Expression.sql r ((Expression.sql l ctx).literal " AND ")
  | .or_ l r, ctx => Expression.sql r ((Expression.sql l ctx).literal " OR ")

/-- Buffer tokens an expression contributes, in textual order. -/
def exprToks : Expression → List Tok
  | .cmp c o _ => [.raw ("`" ++ c ++ "` " ++ o ++ " "), .ph]
  | .and_ l r => exprToks l ++ [.raw " AND "] ++ exprToks r
  | .or_ l r => exprToks l ++ [.raw " OR "] ++ exprToks r

/-- Bound values an expression contributes, in textual order. -/
def exprValues : Expression → List Value
  | .cmp _ _ v => [v]
  | .and_ l r => exprValues l ++ exprValues r
  | .or_ l r => exprValues l ++ exprValues r

/-- Left-associative `AND` reduction of a filter list, as performed by
`util.and_` on the argument tuple of the builders' `where` methods; an
empty filter list yields no predicate. -/
def andAll : List Expression → Option Expression
  | [] => none
  | e :: es => some (es.foldl Expression.and_ e)

theorem Expression.sql_eq (e : Expression) :
    ∀ ctx : Context, e.sql ctx =
      ⟨ctx.buffer ++ exprToks e, ctx.params ++ (exprValues e).map Param.val⟩ := by
  induction e with
  | cmp c o v =>
      intro ctx
      simp [Expression.sql, exprToks, exprValues,
        Context.literal, Context.placeholder, Context.values]
  | and_ l r ihl ihr =>
      intro ctx
      simp [Expression.sql, exprToks, exprValues, ihl, ihr, Context.literal]
  | or_ l r ihl ihr =>
      intro ctx
      simp [Expression.sql, exprToks, exprValues, ihl, ihr, Context.literal]

theorem phCount_exprToks (e : Expression) :
    phCount (exprToks e) = (exprValues e).length := by
  induction e with
  | cmp c o v => simp [phCount, exprToks, exprValues]
  | and_ l r ihl ihr => simp [phCount, exprToks, exprValues] at *; omega
  | or_ l r ihl ihr => simp [phCount, exprToks, exprValues] at *; omega

/-- Comma-joined rendering of a list of clause elements
(`CommaClauseElements` in the source): children render in order separated
by a fixed ", " literal. -/
def commaSql (f : α → Context → Context) : List α → Context → Context
  | [], ctx => ctx
  | [x], ctx => f x ctx
  | x :: y :: rest, ctx => commaSql f (y :: rest) ((f x ctx).literal ", ")

/-- Buffer tokens of a comma-joined list, given each child's tokens. -/
def commaToks (g : α → List Tok) : List α → List Tok
  | [] => []
  | [x] => g x
  | x :: y :: rest => g x ++ [.raw ", "] ++ commaToks g (y :: rest)

theorem commaSql_eq (f : α → Context → Context) (g : α → List Tok)
    (hf : ∀ x ctx, f x ctx = { ctx with buffer := ctx.buffer ++ g x }) :
    ∀ (xs : List α) (ctx : Context),
      commaSql f xs ctx = { ctx with buffer := ctx.buffer ++ commaToks g xs } := by
  intro xs
  induction xs with
  | nil => intro ctx; simp [commaSql, commaToks]
  | cons x tl ih =>
      cases tl with
      | nil => intro ctx; simp [commaSql, commaToks, hf]
      | cons y rest =>
          intro ctx
          simp [commaSql, commaToks, hf, ih, Context.literal]

theorem phCount_commaToks (g : α → List Tok) :
    ∀ xs : List α, phCount (commaToks g xs) = (xs.map fun x => phCount (g x)).sum := by
  intro xs
  induction xs with
  | nil => simp [commaToks, phCount]
  | cons x tl ih =>
      cases tl with
      | nil => simp [commaToks, phCount]
      | cons y rest =>
          simp [commaToks, phCount] at *
          omega

/-- Parenthesis-enclosed comma list (`EnclosedClauseElements` in the
source): the scoped parenthesization helper emits "(" on entry and ")" on
leaving. -/
def enclosedSql (f : α → Context → Context) (xs : List α) (ctx : Context) : Context :=
  (commaSql f xs (ctx.literal "(")).literal ")"

/-- Buffer tokens of an enclosed comma list. -/
def enclosedToks (g : α → List Tok) (xs : List α) : List Tok :=
  [.raw "("] ++ commaToks g xs ++ [.raw ")"]

theorem enclosedSql_eq (f : α → Context → Context) (g : α → List Tok)
    (hf : ∀ x ctx, f x ctx = { ctx with buffer := ctx.buffer ++ g x })
    (xs : List α) (ctx : Context) :
    enclosedSql f xs ctx = { ctx with buffer := ctx.buffer ++ enclosedToks g xs } := by
  simp [enclosedSql, enclosedToks, commaSql_eq f g hf, Context.literal]

/-- The immutable query produced by a render pass: SQL token buffer,
ordered parameters and the expects-rows flag (`_sql.Query` plus the
builder's `__r__` attribute). -/
structure Query where
  sqlToks : List Tok
  params : List Param
  r : Bool
  deriving Repr, DecidableEq

/-! ## `AssignmentList` and `Update` (helo/model/core.py lines 521-558 and 812-854) -/

/-- One assignment value of an `UPDATE ... SET` list: a plain bound value,
a cross-table column reference (`types.Field`), or a sub-expression. -/
inductive AssignValue
  | plain (v : Value)
  | field (tableName col : String)
  | expr (e : Expression)
  deriving Repr, DecidableEq

/-- The `SET` assignment list of an `Update` statement. -/
structure AssignmentList where
  data : List (String × AssignValue)
  deriving Repr, DecidableEq

/-- Fragment the source's loop builds for one assignment pair, following
its `VSM` template: a plain value renders a placeholder, a field renders
`table.column` inline, a sub-expression splices its own rendered fragment
(whose query-terminator character the source strips again). -/
def assignFrag : String × AssignValue → List Tok
  | (col, .plain _) => [.raw ("`" ++ col ++ "` = "), .ph]
  | (col, .field t c) => [.raw ("`" ++ col ++ "` = " ++ t ++ "." ++ c)]
  | (col, .expr e) => .raw ("`" ++ col ++ "` = ") :: exprToks e

/-- Parameter entries the source's loop collects for one assignment pair:
a plain value is appended as a scalar, a field contributes nothing, a
sub-expression's whole parameter list is appended as one element. -/
def assignParamsOf : String × AssignValue → List Param
  | (_, .plain v) => [.val v]
  | (_, .field _ _) => []
  | (_, .expr e) => [.row (exprValues e)]

/-- Parameter entries of a whole assignment list, in loop order. -/
def assignParams (data : List (String × AssignValue)) : List Param :=
  (data.map assignParamsOf).flatten

/-- Buffer tokens of a whole assignment list (comma-joined fragments). -/
def assignToks (data : List (String × AssignValue)) : List Tok :=
  commaToks id (data.map assignFrag)

/-- Render an assignment list (`AssignmentList.__sql__`): the loop builds
the fragment and parameter lists, the fragments render comma-joined, and
the collected parameters are pushed afterwards in one `values` call. -/
def AssignmentList.sqlR (a : AssignmentList) (ctx : Context) : Context :=
  let ps := assignParams a.data
  let c1 := commaSql (fun (f : List Tok) c => { c with buffer := c.buffer ++ f })
    (a.data.map assignFrag) ctx
  if ps.isEmpty then c1 else c1.values ps

theorem assignmentList_sqlR_split (a : AssignmentList) (ctx : Context) :
    a.sqlR ctx = ⟨ctx.buffer ++ assignToks a.data, ctx.params ++ assignParams a.data⟩ := by
  show (if (assignParams a.data).isEmpty then _ else _) = _
  rw [commaSql_eq (fun (f : List Tok) c => { c with buffer := c.buffer ++ f }) id
    (fun _ _ => rfl)]
  by_cases h : (assignParams a.data).isEmpty
  · simp_all [Context.values, assignToks, List.isEmpty_iff]
  · simp_all [Context.values, assignToks]

theorem phCount_assignFrag (cv : String × AssignValue) :
    phCount (assignFrag cv) = paramsFlatLen (assignParamsOf cv) := by
  obtain ⟨c, v⟩ := cv
  cases v with
  | plain v => simp [assignFrag, assignParamsOf, phCount, paramsFlatLen, Param.flatLen]
  | field t c2 => simp [assignFrag, assignParamsOf, phCount, paramsFlatLen]
  | expr e =>
      simp [assignFrag, assignParamsOf, phCount, paramsFlatLen, Param.flatLen]
      have := phCount_exprToks e
      simp [phCount] at this
      omega

theorem phCount_assignToks (data : List (String × AssignValue)) :
    phCount (assignToks data) = paramsFlatLen (assignParams data) := by
  induction data with
  | nil => simp [assignToks, assignParams, commaToks, phCount, paramsFlatLen]
  | cons cv tl ih =>
      cases tl with
      | nil =>
          simp [assignToks, assignParams, commaToks, paramsFlatLen]
          have := phCount_assignFrag cv
          simp [paramsFlatLen] at this
          simpa using this
      | cons cv2 rest =>
          have h1 := phCount_assignFrag cv
          simp [assignToks, assignParams, commaToks, phCount, paramsFlatLen] at *
          omega

/-- The `Update` statement builder: target table, `SET` assignment list,
optional cross-table `FROM` source and optional `WHERE` predicate. -/
structure Update where
  table : String
  values : AssignmentList
  fromT : Option String
  whereC : Option Expression
  deriving Repr, DecidableEq

/-- Replace the `WHERE` predicate (`Update.where`): the filter tuple is
`AND`-reduced and overwrites the prior value. -/
def Update.where_ (u : Update) (filters : List Expression) : Update :=
  { u with whereC := andAll filters }

/-- Render an `Update` (`Update.__sql__`): `UPDATE table SET assignments`,
then the optional `FROM` source, then the optional `WHERE` predicate. -/
def Update.sqlR (u : Update) (ctx : Context) : Context :=
  let c1 := ((ctx.literal "UPDATE ").literal u.table).literal " SET "
  let c2 := u.values.sqlR c1
  let c3 := match u.fromT with
    | some t => (c2.literal " FROM ").literal t
    | none => c2
  match u.whereC with
  | some w => w.sql (c3.literal " WHERE ")
  | none => c3

/-- Render an `Update` from the empty context into a `Query`
(`Fetcher.query`, with the executor's expects-rows flag false). -/
def Update.query (u : Update) : Query :=
  let c := u.sqlR Context.empty
  ⟨c.buffer, c.params, false⟩

theorem update_sqlR_split (u : Update) (ctx : Context) :
    u.sqlR ctx =
      ⟨ctx.buffer ++ [.raw "UPDATE ", .raw u.table, .raw " SET "]
          ++ assignToks u.values.data
          ++ (match u.fromT with
              | some t => [Tok.raw " FROM ", Tok.raw t]
              | none => [])
          ++ (match u.whereC with
              | some w => Tok.raw " WHERE " :: exprToks w
              | none => []),
        ctx.params ++ assignParams u.values.data
          ++ (match u.whereC with
              | some w => (exprValues w).map Param.val
              | none => [])⟩ := by
  obtain ⟨tbl, vals, fr, wh⟩ := u
  cases fr <;> cases wh <;>
    simp [Update.sqlR, Context.literal, assignmentList_sqlR_split, Expression.sql_eq]

theorem paramsFlatLen_map_val (vs : List Value) :
    paramsFlatLen (vs.map Param.val) = vs.length := by
  induction vs with
  | nil => simp [paramsFlatLen]
  | cons v tl ih => simp_all [paramsFlatLen, Param.flatLen]; omega

/-- C1: for every `Update` built from an assignment list and a `WHERE`
predicate, the rendered parameter sequence lists the `SET` assignment
entries before the `WHERE` predicate values; textually, every placeholder
of the `SET` region comes before the `WHERE` keyword and the `WHERE`
region's placeholders, and in each region the placeholder count equals the
number of accumulated scalar parameters, so accumulator order equals the
left-to-right textual order of the placeholders.  The spec's example
`Update(Users).set(name="a").where(id=2)` renders with parameters
`["a", 2]`, the `SET` parameter preceding the `WHERE` parameter. -/
theorem update_set_params_precede_where
    (tbl : String) (a : List (String × AssignValue)) (w : Expression) :
    (Update.query ⟨tbl, ⟨a⟩, none, some w⟩).params
        = assignParams a ++ (exprValues w).map Param.val
    ∧ (Update.query ⟨tbl, ⟨a⟩, none, some w⟩).sqlToks
        = [Tok.raw "UPDATE ", Tok.raw tbl, Tok.raw " SET "]
          ++ assignToks a ++ (Tok.raw " WHERE " :: exprToks w)
    ∧ phCount [Tok.raw "UPDATE ", Tok.raw tbl, Tok.raw " SET "] = 0
    ∧ phCount (assignToks a) = paramsFlatLen (assignParams a)
    ∧ phCount (exprToks w) = paramsFlatLen ((exprValues w).map Param.val)
    ∧ sqlText (Update.query ⟨"users", ⟨[("name", .plain (.str "a"))]⟩, none,
          some (.cmp "id" "=" (.int 2))⟩).sqlToks
        = "UPDATE users SET `name` = %s WHERE `id` = %s"
    ∧ (Update.query ⟨"users", ⟨[("name", .plain (.str "a"))]⟩, none,
          some (.cmp "id" "=" (.int 2))⟩).params
        = [.val (.str "a"), .val (.int 2)] := by
  refine ⟨?_, ?_, ?_, ?_, ?_, ?_, ?_⟩
  · simp [Update.query, update_sqlR_split, Context.empty]
  · simp [Update.query, update_sqlR_split, Context.empty]
  · simp [phCount]
  · exact phCount_assignToks a
  · rw [paramsFlatLen_map_val]
    exact phCount_exprToks w
  · decide
  · decide

/-! ## `Select` (helo/model/core.py lines 225-451) -/

/-- Errors raised by the embedded code paths: builder usage errors
(`helo.err`), the backend's assertion errors, pool-acquisition failure and
attribute access on `None`. -/
inductive Err
  | notAllowedOperation
  | dangerousOperation
  | valueError
  | unconnectedError
  | assertAlreadyAcquired
  | assertNotRunning
  | assertNotAcquired
  | poolAcquireFailed
  | noneAttr
  | userExc (code : Nat)
  deriving Repr, DecidableEq

/-- A selected column: a raw SQL element such as `SQL("*")`, or a column
reference (rendering modelled from the spec, backtick-quoted name). -/
inductive SelCol
  | sqlTxt (s : String)
  | colRef (name : String)
  deriving Repr, DecidableEq

/-- Buffer tokens of one selected column. -/
def SelCol.toks : SelCol → List Tok
  | .sqlTxt s => [.raw s]
  | .colRef n => [.raw ("`" ++ n ++ "`")]

/-- Render one selected column. -/
def SelCol.sqlR (c : SelCol) (ctx : Context) : Context :=
  { ctx with buffer := ctx.buffer ++ c.toks }

/-- Buffer tokens of a column name in a `GROUP BY`/`ORDER BY` list. -/
def colToks (n : String) : List Tok := [.raw ("`" ++ n ++ "`")]

/-- The `Select` statement builder state: columns, from-list, and the
optional `WHERE`, `GROUP BY`, `HAVING`, `ORDER BY`, `LIMIT`, `OFFSET`
slots (joins are not needed by the claims; the from-list holds table
names). -/
structure Select where
  columns : List SelCol
  froms : List String
  whereC : Option Expression
  groupByC : Option (List String)
  havingC : Option Expression
  orderByC : Option (List String)
  lim : Option Int
  off : Option Int
  deriving Repr, DecidableEq

/-- A fresh `Select` as `Select.__init__` leaves it: every optional slot
unset, the from-list holding the model's table. -/
def Select.mkFresh (cols : List SelCol) (table : String) : Select :=
  ⟨cols, [table], none, none, none, none, none, none⟩

/-- Replace the `WHERE` predicate (`Select.where`): the filter tuple is
`AND`-reduced and overwrites the prior value. -/
def Select.where_ (s : Select) (filters : List Expression) : Select :=
  { s with whereC := andAll filters }

/-- Replace the whole `GROUP BY` column set (`Select.group_by`); an empty
column tuple is a usage error. -/
def Select.groupBy (s : Select) (cols : List String) : Except Err Select :=
  if cols.isEmpty then .error .valueError
  else .ok { s with groupByC := some cols }

/-- Replace the `HAVING` predicate (`Select.having`). -/
def Select.havingM (s : Select) (filters : List Expression) : Select :=
  { s with havingC := andAll filters }

/-- Replace the whole `ORDER BY` column set (`Select.order_by`); an empty
column tuple is a usage error. -/
def Select.orderBy (s : Select) (cols : List String) : Except Err Select :=
  if cols.isEmpty then .error .valueError
  else .ok { s with orderByC := some cols }

/-- Replace the row limit (`Select.limit`). -/
def Select.limit (s : Select) (n : Int) : Select :=
  { s with lim := some n }

/-- Replace the row offset (`Select.offset`): a usage error
(`NotAllowedOperation`) when no limit has been set. -/
def Select.offset (s : Select) (o : Int) : Except Err Select :=
  if s.lim.isNone then .error .notAllowedOperation
  else .ok { s with off := some o }

/-- Render a `Select` (`Select.__sql__`): `SELECT columns FROM froms`,
then each optional clause in source order, `LIMIT` and `OFFSET` last. -/
def Select.sqlR (s : Select) (ctx : Context) : Context :=
  let c2 := commaSql SelCol.sqlR s.columns (ctx.literal "SELECT ")
  let c3 := commaSql (fun (t : String) c => c.literal t) s.froms (c2.literal " FROM ")
  let c4 := match s.whereC with
    | some w => w.sql (c3.literal " WHERE ")
    | none => c3
  let c5 := match s.groupByC with
    | some g => commaSql (fun (n : String) c => c.literal ("`" ++ n ++ "`")) g
        (c4.literal " GROUP BY ")
    | none => c4
  let c6 := match s.havingC with
    | some hv => hv.sql (c5.literal " HAVING ")
    | none => c5
  let c7 := match s.orderByC with
    | some o => commaSql (fun (n : String) c => c.literal ("`" ++ n ++ "`")) o
        (c6.literal " ORDER BY ")
    | none => c6
  let c8 := match s.lim with
    | some n => c7.literal (" LIMIT " ++ toString n)
    | none => c7
  match s.off with
  | some m => c8.literal (" OFFSET " ++ toString m)
  | none => c8

/-- Buffer tokens of everything a `Select` renders before the `LIMIT` and
`OFFSET` clauses. -/
def selectBodyToks (s : Select) : List Tok :=
  [.raw "SELECT "] ++ commaToks SelCol.toks s.columns
    ++ [.raw " FROM "] ++ commaToks (fun t => [Tok.raw t]) s.froms
    ++ (match s.whereC with
        | some w => Tok.raw " WHERE " :: exprToks w
        | none => [])
    ++ (match s.groupByC with
        | some g => Tok.raw " GROUP BY " :: commaToks colToks g
        | none => [])
    ++ (match s.havingC with
        | some hv => Tok.raw " HAVING " :: exprToks hv
        | none => [])
    ++ (match s.orderByC with
        | some o => Tok.raw " ORDER BY " :: commaToks colToks o
        | none => [])

/-- Buffer tokens of the optional `LIMIT` clause. -/
def limToks : Option Int → List Tok
  | some n => [.raw (" LIMIT " ++ toString n)]
  | none => []

/-- Buffer tokens of the optional `OFFSET` clause. -/
def offToks : Option Int → List Tok
  | some m => [.raw (" OFFSET " ++ toString m)]
  | none => []

/-- Parameters a `Select` accumulates: `WHERE` values then `HAVING`
values, in textual order. -/
def selectParams (s : Select) : List Param :=
  (match s.whereC with
    | some w => (exprValues w).map Param.val
    | none => [])
  ++ (match s.havingC with
    | some hv => (exprValues hv).map Param.val
    | none => [])

theorem select_sqlR_split (s : Select) (ctx : Context) :
    s.sqlR ctx =
      ⟨ctx.buffer ++ selectBodyToks s ++ limToks s.lim ++ offToks s.off,
        ctx.params ++ selectParams s⟩ := by
  obtain ⟨cols, fr, wh, gb, hv, ob, l, o⟩ := s
  have hcc := commaSql_eq SelCol.sqlR SelCol.toks (fun _ _ => rfl)
  have ht2 := commaSql_eq
    (fun (t : String) (c : Context) => { c with buffer := c.buffer ++ [Tok.raw t] })
    (fun t => [Tok.raw t]) (fun _ _ => rfl)
  have hn2 := commaSql_eq
    (fun (n : String) (c : Context) =>
      { c with buffer := c.buffer ++ [Tok.raw ("`" ++ n ++ "`")] })
    colToks (fun _ _ => rfl)
  cases wh <;> cases gb <;> cases hv <;> cases ob <;> cases l <;> cases o <;>
    simp [Select.sqlR, selectBodyToks, selectParams, limToks, offToks,
      Context.literal, Expression.sql_eq, hcc, ht2, hn2, colToks]

/-- Render a `Select` from the empty context into a `Query`
(`Fetcher.query`, with the fetcher's expects-rows flag true). -/
def Select.query (s : Select) : Query :=
  let c := s.sqlR Context.empty
  ⟨c.buffer, c.params, true⟩

/-- C5: calling `offset` before any `limit` has been set raises
`NotAllowedOperation`; calling `limit n` then `offset m` succeeds, and the
produced SQL renders the clauses in the order `LIMIT n OFFSET m`, at the
very end of the statement. -/
theorem offset_requires_limit_and_renders_in_order (s : Select) (n m : Int) :
    (s.lim = none → s.offset m = .error .notAllowedOperation)
    ∧ (s.limit n).offset m = .ok { s with lim := some n, off := some m }
    ∧ (Select.query { s with lim := some n, off := some m }).sqlToks
        = selectBodyToks s
          ++ [Tok.raw (" LIMIT " ++ toString n), Tok.raw (" OFFSET " ++ toString m)] := by
  refine ⟨?_, ?_, ?_⟩
  · intro h; simp [Select.offset, h]
  · simp [Select.limit, Select.offset]
  · simp [Select.query, select_sqlR_split, Context.empty, limToks, offToks, selectBodyToks]

/-- Witness for C5 at a concrete fresh builder: `offset` alone fails and
`limit 3` then `offset 5` succeeds. -/
theorem offset_requires_limit_witness :
    (Select.mkFresh [SelCol.sqlTxt "*"] "users").offset 5
        = .error .notAllowedOperation
    ∧ ((Select.mkFresh [SelCol.sqlTxt "*"] "users").limit 3).offset 5
        = .ok { Select.mkFresh [SelCol.sqlTxt "*"] "users" with
                  lim := some 3, off := some 5 } := by
  have h := offset_requires_limit_and_renders_in_order
    (Select.mkFresh [SelCol.sqlTxt "*"] "users") 3 5
  exact ⟨h.1 rfl, h.2.1⟩

/-! ## Terminal fetch behaviour (`Select.get`/`Select.first`,
`Connection.fetch` in helo/db/backend/mysql.py lines 143-161) -/

/-- Result of `Connection.fetch`: a single optional row (`fetchone`) or a
row list (`fetchall`/`fetchmany`). -/
inductive FetchResult (α : Type)
  | one (r : Option α)
  | many (rs : List α)
  deriving Repr, DecidableEq

/-- Number of rows a fetch result carries. -/
def FetchResult.count : FetchResult α → Nat
  | .one none => 0
  | .one (some _) => 1
  | .many rs => rs.length

/-- The row-dispatch of `Connection.fetch`: a falsy row count fetches all
rows, exactly 1 fetches one row, any other count fetches that many. -/
def fetchRows (rows : Option Nat) (data : List α) : FetchResult α :=
  match rows with
  | none => .many data
  | some r => if r = 0 then .many data else if r = 1 then .one data.head? else .many (data.take r)

/-- Execution plan of `Select.get`: the builder's query is rendered
unchanged and executed with a row count of 1 (`__do__(rows=_SINGLE)`). -/
def Select.getPlan (s : Select) : Query × Nat := (s.query, 1)

/-- Execution plan of `Select.first`: the builder's limit is first forced
to 1 (`self.limit(self._SINGLE)`), then the query is rendered and executed
with a row count of 1. -/
def Select.firstPlan (s : Select) : Query × Nat := ((s.limit 1).query, 1)

/-- C7 counterexample: on a fresh `SELECT * FROM users`, `get` renders the
query unchanged — its SQL is exactly `SELECT * FROM users`, which carries
no `LIMIT 1` — while `first` renders `SELECT * FROM users LIMIT 1`; the
two rendered queries differ, refuting the claim that `get` renders a query
carrying `LIMIT 1`. -/
theorem get_renders_no_limit_counterexample :
    (Select.getPlan (Select.mkFresh [SelCol.sqlTxt "*"] "users")).1
        = Select.query (Select.mkFresh [SelCol.sqlTxt "*"] "users")
    ∧ (Select.getPlan (Select.mkFresh [SelCol.sqlTxt "*"] "users")).1.sqlToks
        = [.raw "SELECT ", .raw "*", .raw " FROM ", .raw "users"]
    ∧ sqlText (Select.getPlan (Select.mkFresh [SelCol.sqlTxt "*"] "users")).1.sqlToks
        = "SELECT * FROM users"
    ∧ (Select.firstPlan (Select.mkFresh [SelCol.sqlTxt "*"] "users")).1.sqlToks
        = [.raw "SELECT ", .raw "*", .raw " FROM ", .raw "users", .raw " LIMIT 1"]
    ∧ (Select.getPlan (Select.mkFresh [SelCol.sqlTxt "*"] "users")).1.sqlToks
        ≠ (Select.firstPlan (Select.mkFresh [SelCol.sqlTxt "*"] "users")).1.sqlToks := by
  decide

/-- C7 (amended): `first` forces limit=1, so its rendered query carries
`LIMIT 1`; `get` renders the builder's query unchanged (no `LIMIT` is
added) but both terminal operations execute with a fetch row count of 1,
through the single-row `fetchone` dispatch, so each fetches at most a
single row. -/
theorem first_forces_limit_get_fetches_single {α : Type} (s : Select) (data : List α) :
    (Select.firstPlan s).1 = Select.query { s with lim := some 1 }
    ∧ (Select.firstPlan s).1.sqlToks
        = selectBodyToks s ++ limToks (some 1) ++ offToks s.off
    ∧ limToks (some 1) = [Tok.raw " LIMIT 1"]
    ∧ (Select.firstPlan s).2 = 1
    ∧ (Select.getPlan s).1 = Select.query s
    ∧ (Select.getPlan s).2 = 1
    ∧ (fetchRows (some 1) data).count ≤ 1 := by
  refine ⟨rfl, ?_, rfl, rfl, rfl, rfl, ?_⟩
  · simp [Select.firstPlan, Select.limit, Select.query, select_sqlR_split, Context.empty,
      selectBodyToks]
  · cases data <;> simp [fetchRows, FetchResult.count]

/-- C8: repeated calls to the same mutating `Select` method replace the
prior value (last-call-wins) rather than accumulate: a second `where`
discards the first predicate, a second `limit` the first bound, and a
second `group_by`/`order_by` call replaces the whole column set; in each
case the doubled-call builder renders the same query as the single-call
builder. -/
theorem builder_last_call_wins (s : Select) (p1 p2 : Expression)
    (ps1 ps2 : List Expression) (n1 n2 : Int)
    (g1 g2 : String) (gs1 gs2 : List String)
    (o1 o2 : String) (os1 os2 : List String) :
    (s.where_ (p1 :: ps1)).where_ (p2 :: ps2) = s.where_ (p2 :: ps2)
    ∧ Select.query ((s.where_ (p1 :: ps1)).where_ (p2 :: ps2))
        = Select.query (s.where_ (p2 :: ps2))
    ∧ (s.limit n1).limit n2 = s.limit n2
    ∧ Select.query ((s.limit n1).limit n2) = Select.query (s.limit n2)
    ∧ (s.groupBy (g1 :: gs1)).bind (fun t => t.groupBy (g2 :: gs2))
        = s.groupBy (g2 :: gs2)
    ∧ (s.orderBy (o1 :: os1)).bind (fun t => t.orderBy (o2 :: os2))
        = s.orderBy (o2 :: os2) := by
  refine ⟨rfl, rfl, rfl, rfl, ?_, ?_⟩
  · simp [Select.groupBy, Except.bind]
  · simp [Select.orderBy, Except.bind]

/-! ## Connection manager and transactions
(helo/db/backend/mysql.py lines 96-237)

The asynchronous methods are embedded as sequential state transformers:
the three locks only serialize the suspension points, so within one
logical scope each method body runs as one atomic step.  The aiomysql pool
is the spec's external collaborator: acquisition hands out the next free
physical handle, or fails (covering driver failure and cancellation of the
awaited acquire); release puts the handle back. -/

/-- Observable effects on the physical layer, used to state which steps
touch the pool, the transaction bracket, and the execute path. -/
inductive Event
  | poolAcquire (h : Nat)
  | poolRelease (h : Nat)
  | txBegin
  | txCommit
  | txRollback
  | exec (many : Bool)
  deriving Repr, DecidableEq

/-- The external pool: whether the backend is running (a live `_pool`),
and the free physical handles. -/
structure Pool where
  running : Bool
  free : List Nat
  deriving Repr, DecidableEq

/-- The per-scope connection state: reentrancy counter (`_conn_counter`),
attached physical handle (`_current`) and the attached session's
transaction flag. -/
structure Connection where
  connCounter : Int
  current : Option Nat
  inTx : Bool
  deriving Repr, DecidableEq

/-- Whole modelled state: pool, connection scope and the event log. -/
structure St where
  pool : Pool
  conn : Connection
  log : List Event
  deriving Repr, DecidableEq

/-- `Connection.acquire`: asserts no handle is attached and the backend is
running, then awaits one physical handle from the pool; the await can fail
(or be cancelled), in which case nothing is attached. -/
def Connection.acquireS (s : St) : Option Err × St :=
  if s.conn.current.isSome then (some .assertAlreadyAcquired, s)
  else if !s.pool.running then (some .assertNotRunning, s)
  else
    match s.pool.free with
    | [] => (some .poolAcquireFailed, s)
    | h :: rest =>
        (none, { s with pool := { s.pool with free := rest },
                        conn := { s.conn with current := some h },
                        log := s.log ++ [.poolAcquire h] })

/-- `Connection.release`: asserts a handle is attached and the backend is
running, returns the handle to the pool and detaches it. -/
def Connection.releaseS (s : St) : Option Err × St :=
  match s.conn.current with
  | none => (some .assertNotAcquired, s)
  | some h =>
      if !s.pool.running then (some .assertNotRunning, s)
      else
        (none, { s with pool := { s.pool with free := s.pool.free ++ [h] },
                        conn := { s.conn with current := none },
                        log := s.log ++ [.poolRelease h] })

/-- `Connection.__aenter__`: under the connection lock, increment the
reentrancy counter and, exactly when it becomes 1, acquire a physical
handle.  The increment happens before the acquire and is not undone when
the acquire fails. -/
def Connection.aenterS (s : St) : Option Err × St :=
  let s1 := { s with conn := { s.conn with connCounter := s.conn.connCounter + 1 } }
  if s1.conn.connCounter = 1 then Connection.acquireS s1 else (none, s1)

/-- `Connection.__aexit__`: under the connection lock, decrement the
reentrancy counter and, exactly when it returns to 0, release the physical
handle. -/
def Connection.aexitS (s : St) : Option Err × St :=
  let s1 := { s with conn := { s.conn with connCounter := s.conn.connCounter - 1 } }
  if s1.conn.connCounter = 0 then Connection.releaseS s1 else (none, s1)

/-- `Connection.execute`: asserts a handle is attached, then runs the
statement under the query lock — `executemany` when the many flag is set,
plain `execute` otherwise (the cursor's row counts are external). -/
def Connection.executeS (many : Bool) (s : St) : Option Err × St :=
  match s.conn.current with
  | none => (some .assertNotAcquired, s)
  | some _ => (none, { s with log := s.log ++ [.exec many] })

/-- `Connection.begin`: under the transaction lock, a (possibly nested)
`__aenter__`, then `begin` on the attached session (an attribute access
that fails on `None`). -/
def Connection.beginS (s : St) : Option Err × St :=
  match Connection.aenterS s with
  | (some e, s1) => (some e, s1)
  | (none, s1) =>
      match s1.conn.current with
      | none => (some .noneAttr, s1)
      | some _ =>
          (none, { s1 with conn := { s1.conn with inTx := true },
                           log := s1.log ++ [.txBegin] })

/-- `Connection.commit`: under the transaction lock, `commit` on the
attached session, then the matching `__aexit__`. -/
def Connection.commitS (s : St) : Option Err × St :=
  match s.conn.current with
  | none => (some .noneAttr, s)
  | some _ =>
      Connection.aexitS { s with conn := { s.conn with inTx := false },
                                 log := s.log ++ [.txCommit] }

/-- `Connection.rollback`: under the transaction lock, `rollback` on the
attached session, then the matching `__aexit__`. -/
def Connection.rollbackS (s : St) : Option Err × St :=
  match s.conn.current with
  | none => (some .noneAttr, s)
  | some _ =>
      Connection.aexitS { s with conn := { s.conn with inTx := false },
                                 log := s.log ++ [.txRollback] }

/-- C2: a connection scope is reentrant.  From an idle scope over a
running pool: the first enter fetches the next physical handle `h` from
the pool, the second enter only increments the counter (no pool event),
the first exit only decrements it, leaving the scope leased with the same
handle `h` still attached, and the second exit returns `h` to the pool and
leaves the scope idle with no handle attached. -/
theorem connection_scope_reentrant (h : Nat) (rest : List Nat) (lg : List Event) :
    Connection.aenterS ⟨⟨true, h :: rest⟩, ⟨0, none, false⟩, lg⟩
        = (none, ⟨⟨true, rest⟩, ⟨1, some h, false⟩, lg ++ [.poolAcquire h]⟩)
    ∧ Connection.aenterS ⟨⟨true, rest⟩, ⟨1, some h, false⟩, lg ++ [.poolAcquire h]⟩
        = (none, ⟨⟨true, rest⟩, ⟨2, some h, false⟩, lg ++ [.poolAcquire h]⟩)
    ∧ Connection.aexitS ⟨⟨true, rest⟩, ⟨2, some h, false⟩, lg ++ [.poolAcquire h]⟩
        = (none, ⟨⟨true, rest⟩, ⟨1, some h, false⟩, lg ++ [.poolAcquire h]⟩)
    ∧ Connection.aexitS ⟨⟨true, rest⟩, ⟨1, some h, false⟩, lg ++ [.poolAcquire h]⟩
        = (none, ⟨⟨true, rest ++ [h]⟩, ⟨0, none, false⟩,
            (lg ++ [.poolAcquire h]) ++ [.poolRelease h]⟩) := by
  refine ⟨?_, ?_, ?_, ?_⟩ <;>
    simp [Connection.aenterS, Connection.aexitS,
      Connection.acquireS, Connection.releaseS]

/-- C4: the code leaves the reentrancy counter incremented when the
outermost acquire fails.  From an idle scope, when the awaited pool
acquisition fails (e.g. on cancellation), `__aenter__` propagates the
failure but leaves the counter at 1 with no handle attached; the next
scope exit then trips release's "Connection is not acquired" assertion
instead of restoring a consistent state. -/
theorem failed_acquire_leaves_counter_incremented (lg : List Event) :
    Connection.aenterS ⟨⟨true, []⟩, ⟨0, none, false⟩, lg⟩
        = (some .poolAcquireFailed, ⟨⟨true, []⟩, ⟨1, none, false⟩, lg⟩)
    ∧ Connection.aexitS ⟨⟨true, []⟩, ⟨1, none, false⟩, lg⟩
        = (some .assertNotAcquired, ⟨⟨true, []⟩, ⟨0, none, false⟩, lg⟩) := by
  refine ⟨?_, ?_⟩ <;>
    simp [Connection.aenterS, Connection.aexitS,
      Connection.acquireS, Connection.releaseS]

/-- One invocation of a callable wrapped by the `Transaction` decorator
(`Transaction.__call__`, whose wrapper runs the call inside
`async with self`): `begin`; on a begin failure the body never runs; on a
normal body result `commit` and return the result; on a body exception
`rollback` and re-raise the body's exception (a failing resolution step's
own exception propagates instead, as in an `async with` exit).  The
wrapped callable is represented by its outcome: a returned value or a
raised exception; the body does not itself touch the connection scope. -/
def Transaction.callS {A : Type} (fres : Except Err A) (s : St) : Except Err A × St :=
  match Connection.beginS s with
  | (some e, s1) => (.error e, s1)
  | (none, s1) =>
      match fres with
      | .ok a =>
          match Connection.commitS s1 with
          | (some e, s2) => (.error e, s2)
          | (none, s2) => (.ok a, s2)
      | .error e =>
          match Connection.rollbackS s1 with
          | (some e2, s2) => (.error e2, s2)
          | (none, s2) => (.error e, s2)

/-- C3: a transaction-wrapped invocation over an idle scope of a running
pool resolves by exactly one of commit or rollback on every exit path: a
body that raises triggers rollback and its exception still propagates, a
body that returns normally triggers commit and its value is returned; in
both cases the bracket is begin-then-resolution, the scope ends idle and
out of any transaction, and the physical handle goes back to the pool. -/
theorem transaction_decorator_resolves_once {A : Type} (fres : Except Err A)
    (h : Nat) (rest : List Nat) (lg : List Event) :
    (Transaction.callS fres ⟨⟨true, h :: rest⟩, ⟨0, none, false⟩, lg⟩).1 = fres
    ∧ (Transaction.callS fres ⟨⟨true, h :: rest⟩, ⟨0, none, false⟩, lg⟩).2
        = ⟨⟨true, rest ++ [h]⟩, ⟨0, none, false⟩,
            lg ++ [.poolAcquire h, .txBegin]
              ++ (match fres with
                  | .ok _ => [Event.txCommit, Event.poolRelease h]
                  | .error _ => [Event.txRollback, Event.poolRelease h])⟩
    ∧ ((match fres with
        | .ok _ => [Event.txCommit, Event.poolRelease h]
        | .error _ => [Event.txRollback, Event.poolRelease h]).countP
          fun e => decide (e = Event.txCommit) || decide (e = Event.txRollback)) = 1 := by
  cases fres <;>
    simp [Transaction.callS, Connection.beginS, Connection.commitS,
      Connection.rollbackS, Connection.aenterS, Connection.aexitS,
      Connection.acquireS, Connection.releaseS, List.countP, List.countP.go]

/-! ## `Delete` (helo/model/core.py lines 561-596) -/

/-- The `Delete` statement builder: target table, optional `WHERE`
predicate, optional `LIMIT` and the force override flag (false unless
explicitly supplied). -/
structure Delete where
  table : String
  whereC : Option Expression
  lim : Option Int
  force : Bool
  deriving Repr, DecidableEq

/-- Replace the `WHERE` predicate (`Delete.where`): the filter tuple is
`AND`-reduced and overwrites the prior value. -/
def Delete.where_ (d : Delete) (filters : List Expression) : Delete :=
  { d with whereC := andAll filters }

/-- Render a `Delete` (`Delete.__sql__`): `DELETE FROM table`, then the
`WHERE` clause when a predicate is set; with no predicate and no force
override, rendering raises `DangerousOperation`; the optional `LIMIT`
comes last on either successful path. -/
def Delete.sqlE (d : Delete) (ctx : Context) : Except Err Context :=
  let c1 := (ctx.literal "DELETE FROM ").literal d.table
  match d.whereC with
  | some w =>
      let c2 := w.sql (c1.literal " WHERE ")
      .ok (match d.lim with
        | some n => c2.literal (" LIMIT " ++ toString n)
        | none => c2)
  | none =>
      if !d.force then .error .dangerousOperation
      else
        .ok (match d.lim with
          | some n => c1.literal (" LIMIT " ++ toString n)
          | none => c1)

/-- Render a `Delete` from the empty context into a `Query`. -/
def Delete.queryE (d : Delete) : Except Err Query :=
  (d.sqlE Context.empty).map fun c => ⟨c.buffer, c.params, false⟩

/-- Executing a `Delete` (`Executor.do` via `Fetcher.__do__`): the query
is rendered first, so a render error propagates before anything reaches
the connection; otherwise the statement runs on the connection scope. -/
def Delete.doS (d : Delete) (s : St) : Except Err Unit × St :=
  match d.queryE with
  | .error e => (.error e, s)
  | .ok _ =>
      match Connection.executeS false s with
      | (some e, s') => (.error e, s')
      | (none, s') => (.ok (), s')

/-- Number of occurrences of the `WHERE` keyword token in a buffer. -/
def whereTokCount (ts : List Tok) : Nat :=
  ts.countP fun t => decide (t = Tok.raw " WHERE ")

theorem cmp_frag_ne_where (c o : String) :
    ("`" ++ c ++ "` " ++ o ++ " ") ≠ " WHERE " := by
  intro h
  have h2 : ("`" ++ c ++ "` " ++ o ++ " ").data = (" WHERE ").data := by rw [h]
  simp [String.data_append] at h2

theorem limit_frag_ne_where (n : Int) : (" LIMIT " ++ toString n) ≠ " WHERE " := by
  intro h
  have h2 : (" LIMIT " ++ toString n).data = (" WHERE ").data := by rw [h]
  simp [String.data_append] at h2

theorem whereTokCount_exprToks (e : Expression) : whereTokCount (exprToks e) = 0 := by
  induction e with
  | cmp c o v => simp [whereTokCount, exprToks, List.countP_cons, cmp_frag_ne_where c o]
  | and_ l r ihl ihr =>
      simp_all [whereTokCount, exprToks, List.countP_append, List.countP_cons]
  | or_ l r ihl ihr =>
      simp_all [whereTokCount, exprToks, List.countP_append, List.countP_cons]

/-- C6: rendering a `Delete` with no `WHERE` predicate and no force
override fails with the distinct `DangerousOperation` error, and executing
it sends nothing to the backend (the state, including the event log, is
untouched); a `Delete` with a `WHERE` predicate renders exactly one
`WHERE` clause — its buffer decomposes as the delete head, one `WHERE`
keyword token, the predicate tokens and the optional limit, and neither
the predicate tokens nor the limit contain a further `WHERE` keyword. -/
theorem delete_requires_where_or_force (tbl : String) (w : Expression)
    (p : Expression) (ps : List Expression) (l : Option Int) (fc : Bool) (s : St) :
    (Delete.mk tbl none none false).queryE = .error .dangerousOperation
    ∧ (Delete.mk tbl none none false).doS s = (.error .dangerousOperation, s)
    ∧ ((Delete.mk tbl none none false).where_ (p :: ps)).whereC
        = some (ps.foldl Expression.and_ p)
    ∧ (Delete.mk tbl (some w) l fc).queryE
        = .ok ⟨[Tok.raw "DELETE FROM ", Tok.raw tbl, Tok.raw " WHERE "]
              ++ exprToks w ++ limToks l,
            (exprValues w).map Param.val, false⟩
    ∧ whereTokCount (exprToks w) = 0
    ∧ whereTokCount (limToks l) = 0 := by
  refine ⟨?_, ?_, ?_, ?_, whereTokCount_exprToks w, ?_⟩
  · simp [Delete.queryE, Delete.sqlE, Except.map]
  · simp [Delete.doS, Delete.queryE, Delete.sqlE, Except.map]
  · simp [Delete.where_, andAll]
  · cases l <;>
      simp [Delete.queryE, Delete.sqlE, Context.empty, Context.literal,
        Expression.sql_eq, limToks, Except.map]
  · cases l <;>
      simp [whereTokCount, limToks, List.countP_cons, limit_frag_ne_where]

/-! ## `ValuesMatch` and `Insert` (helo/model/core.py lines 454-494 and 741-775) -/

/-- Bound values of a `VALUES` clause: one row built from a dict, or a
batch of rows built from a dict list. -/
inductive VMVals
  | single (vs : List Value)
  | batch (rows : List (List Value))
  deriving Repr, DecidableEq

/-- Parameter entries a `VALUES` clause pushes: a single row extends the
accumulator with its scalars, a batch extends it with one tuple per row. -/
def VMVals.toParams : VMVals → List Param
  | .single vs => vs.map .val
  | .batch rs => rs.map .row

/-- The `VALUES` clause element: the enclosed column list, one placeholder
per column (the source's list of `SQL("%s")` elements) and the bound
values. -/
structure ValuesMatch where
  columns : List String
  phs : List Unit
  vals : VMVals
  deriving Repr, DecidableEq

/-- `ValuesMatch.__init__` on a dict: columns are the dict keys in order,
the values its values, one placeholder per column. -/
def ValuesMatch.ofDict (row : List (String × Value)) : ValuesMatch :=
  ⟨row.map Prod.fst, row.map (fun _ => ()), .single (row.map Prod.snd)⟩

/-- `ValuesMatch.__init__` on a nonempty dict list: columns are the first
row's keys, the values one tuple per row, one placeholder per column. -/
def ValuesMatch.ofRows (r0 : List (String × Value))
    (rest : List (List (String × Value))) : ValuesMatch :=
  ⟨r0.map Prod.fst, r0.map (fun _ => ()),
    .batch ((r0 :: rest).map fun r => r.map Prod.snd)⟩

/-- Render a `VALUES` clause (`ValuesMatch.__sql__`): a space, the
enclosed column list, the `VALUES` keyword, the enclosed placeholder
tuple, then one push of the bound values onto the accumulator. -/
def ValuesMatch.sqlR (vm : ValuesMatch) (ctx : Context) : Context :=
  let c1 := enclosedSql (fun (c : String) k => k.literal ("`" ++ c ++ "`"))
    vm.columns (ctx.literal " ")
  let c2 := enclosedSql (fun (_ : Unit) k => k.placeholder)
    vm.phs (c1.literal " VALUES ")
  c2.values vm.vals.toParams

/-- The `Insert` statement builder: target table, either a `VALUES`
clause or an explicit column list (for `INSERT ... SELECT`), the optional
nested select, and the many flag recorded in the builder's execution
properties. -/
structure Insert where
  table : String
  values : Sum ValuesMatch (List String)
  fromSel : Option Select
  many : Bool
  deriving Repr, DecidableEq

/-- Render an `Insert` (`Insert.__sql__`): `INSERT INTO table`, then the
`VALUES` clause or the enclosed column list, then the optional nested
select. -/
def Insert.sqlR (i : Insert) (ctx : Context) : Context :=
  let c1 := (ctx.literal "INSERT INTO ").literal i.table
  let c2 := match i.values with
    | .inl vm => vm.sqlR c1
    | .inr cols =>
        enclosedSql (fun (c : String) k => k.literal ("`" ++ c ++ "`")) cols
          (c1.literal " ")
  match i.fromSel with
  | some sel => sel.sqlR (c2.literal " ")
  | none => c2

/-- Render an `Insert` from the empty context into a `Query`. -/
def Insert.query (i : Insert) : Query :=
  let c := i.sqlR Context.empty
  ⟨c.buffer, c.params, false⟩

/-- C9: a single-row `Insert` and a batch `Insert` over the same column
set render structurally identical SQL — the same enclosed column list and
the same single placeholder tuple — differing only in the bound `VALUES`
arity: the single form accumulates one scalar per column, the batch form
one tuple per row; the batch builder carries the many flag, so executing
it takes the batched `executemany` path while the single form takes the
plain `execute` path. -/
theorem insert_single_batch_same_shape (tbl : String)
    (row r0 : List (String × Value)) (rest : List (List (String × Value)))
    (hcols : r0.map Prod.fst = row.map Prod.fst)
    (pl : Pool) (cnt : Int) (hh : Nat) (tx : Bool) (lg : List Event) :
    (Insert.query ⟨tbl, .inl (ValuesMatch.ofDict row), none, false⟩).sqlToks
        = (Insert.query ⟨tbl, .inl (ValuesMatch.ofRows r0 rest), none, true⟩).sqlToks
    ∧ (Insert.query ⟨tbl, .inl (ValuesMatch.ofDict row), none, false⟩).params
        = (row.map Prod.snd).map Param.val
    ∧ (Insert.query ⟨tbl, .inl (ValuesMatch.ofRows r0 rest), none, true⟩).params
        = ((r0 :: rest).map fun r => r.map Prod.snd).map Param.row
    ∧ (Insert.mk tbl (.inl (ValuesMatch.ofDict row)) none false).many = false
    ∧ (Insert.mk tbl (.inl (ValuesMatch.ofRows r0 rest)) none true).many = true
    ∧ Connection.executeS
        (Insert.mk tbl (.inl (ValuesMatch.ofRows r0 rest)) none true).many
        ⟨pl, ⟨cnt, some hh, tx⟩, lg⟩
        = (none, ⟨pl, ⟨cnt, some hh, tx⟩, lg ++ [.exec true]⟩)
    ∧ Connection.executeS
        (Insert.mk tbl (.inl (ValuesMatch.ofDict row)) none false).many
        ⟨pl, ⟨cnt, some hh, tx⟩, lg⟩
        = (none, ⟨pl, ⟨cnt, some hh, tx⟩, lg ++ [.exec false]⟩) := by
  have hunit : r0.map (fun _ => ()) = row.map (fun _ => ()) := by
    have hlen : r0.length = row.length := by
      have := congrArg List.length hcols
      simpa using this
    apply List.ext_getElem <;> simp [hlen]
  have hcl := enclosedSql_eq (fun (c : String) (k : Context) => k.literal ("`" ++ c ++ "`"))
    (fun c => [Tok.raw ("`" ++ c ++ "`")]) (fun _ _ => rfl)
  have hph := enclosedSql_eq (fun (_ : Unit) (k : Context) => k.placeholder)
    (fun _ => [Tok.ph]) (fun _ _ => rfl)
  have hcl2 := enclosedSql_eq
    (fun (c : String) (k : Context) => { k with buffer := k.buffer ++ [Tok.raw ("`" ++ c ++ "`")] })
    (fun c => [Tok.raw ("`" ++ c ++ "`")]) (fun _ _ => rfl)
  have hph2 := enclosedSql_eq
    (fun (_ : Unit) (k : Context) => { k with buffer := k.buffer ++ [Tok.ph] })
    (fun _ => [Tok.ph]) (fun _ _ => rfl)
  refine ⟨?_, ?_, ?_, rfl, rfl, ?_, ?_⟩
  · simp [Insert.query, Insert.sqlR, ValuesMatch.sqlR, ValuesMatch.ofDict,
      ValuesMatch.ofRows, hcols, hunit, hcl, hph, Context.values]
  · simp [Insert.query, Insert.sqlR, ValuesMatch.sqlR, ValuesMatch.ofDict,
      Context.values, VMVals.toParams, Context.empty, Context.literal, hcl, hph, hcl2, hph2]
  · simp [Insert.query, Insert.sqlR, ValuesMatch.sqlR, ValuesMatch.ofRows,
      Context.values, VMVals.toParams, Context.empty, Context.literal, hcl, hph, hcl2, hph2]
  · simp [Connection.executeS]
  · simp [Connection.executeS]

/-- Witness for C9 at concrete rows sharing the column set
`[a, b]`: one single row and a two-row batch. -/
theorem insert_single_batch_witness :
    (Insert.query ⟨"users", .inl (ValuesMatch.ofDict
        [("a", .int 1), ("b", .str "x")]), none, false⟩).sqlToks
      = (Insert.query ⟨"users", .inl (ValuesMatch.ofRows
          [("a", .int 2), ("b", .str "y")]
          [[("a", .int 3), ("b", .str "z")]]), none, true⟩).sqlToks
    ∧ (Insert.query ⟨"users", .inl (ValuesMatch.ofDict
        [("a", .int 1), ("b", .str "x")]), none, false⟩).params
      = [.val (.int 1), .val (.str "x")]
    ∧ (Insert.query ⟨"users", .inl (ValuesMatch.ofRows
          [("a", .int 2), ("b", .str "y")]
          [[("a", .int 3), ("b", .str "z")]]), none, true⟩).params
      = [.row [.int 2, .str "y"], .row [.int 3, .str "z"]] :=
  have h := insert_single_batch_same_shape "users"
    [("a", .int 1), ("b", .str "x")]
    [("a", .int 2), ("b", .str "y")]
    [[("a", .int 3), ("b", .str "z")]]
    (by decide) ⟨true, []⟩ 1 0 false []
  ⟨h.1, h.2.1, h.2.2.1⟩

/-! ## `Database` facade (helo/db/core.py lines 34-122) -/

/-- The `Database` facade state: the connected flag and the task-local
context variable holding the current scope's connection object (objects
identified by number; `nextId` numbers a freshly created scope). -/
structure Database where
  isConnected : Bool
  connctx : Option Nat
  nextId : Nat
  deriving Repr, DecidableEq

/-- `Database.connection`: returns `None` when not connected; otherwise
returns the context variable's connection, creating and storing a fresh
backend connection scope on a `LookupError`. -/
def Database.connectionD (db : Database) : Option Nat × Database :=
  if !db.isConnected then (none, db)
  else
    match db.connctx with
    | some c => (some c, db)
    | none => (some db.nextId, { db with connctx := some db.nextId })

/-- `Database.execute`: raises `UnconnectedError` when not connected;
otherwise the query runs on the scope connection (the connected path
delegates to the backend and is abstracted here — the claim only concerns
the unconnected guard). -/
def Database.executeD (db : Database) (_q : Query) : Except Err Unit :=
  if !db.isConnected then .error .unconnectedError
  else .ok ()

/-- `Database.transaction`: raises `UnconnectedError` when not connected;
otherwise calls `.transaction()` on the object `connection()` returned —
an attribute access that would fail on `None`. -/
def Database.transactionD (db : Database) : Except Err (Nat × Database) :=
  if !db.isConnected then .error .unconnectedError
  else
    match db.connectionD with
    | (none, _) => .error .noneAttr
    | (some c, db') => .ok (c, db')

/-- C10: when the database is not connected, `connection()` returns
`None` while `execute()` and `transaction()` raise `UnconnectedError`;
and `transaction()` never dereferences `None`, because its connected path
always receives a connection object from `connection()`. -/
theorem unconnected_guards (db : Database) (q : Query) :
    (db.isConnected = false →
      db.connectionD.1 = none
      ∧ db.executeD q = .error .unconnectedError
      ∧ db.transactionD = .error .unconnectedError)
    ∧ db.transactionD ≠ .error .noneAttr := by
  constructor
  · intro hdb
    refine ⟨?_, ?_, ?_⟩ <;>
      simp [Database.connectionD, Database.executeD, Database.transactionD, hdb]
  · rcases hb : db.isConnected with _ | _
    · simp [Database.transactionD, hb]
    · rcases hc : db.connctx with _ | c <;>
        simp [Database.transactionD, Database.connectionD, hb, hc]

/-- Witness for C10 at a concrete unconnected database. -/
theorem unconnected_guards_witness :
    (Database.mk false none 0).connectionD.1 = none
    ∧ (Database.mk false none 0).executeD ⟨[], [], false⟩
        = .error .unconnectedError
    ∧ (Database.mk false none 0).transactionD = .error .unconnectedError
    ∧ (Database.mk false none 0).transactionD ≠ .error .noneAttr :=
  have h := unconnected_guards (Database.mk false none 0) ⟨[], [], false⟩
  ⟨(h.1 rfl).1, (h.1 rfl).2.1, (h.1 rfl).2.2, h.2⟩

end Helo
